import Mathlib

/-!
Shallow embedding of `src/bacula-resource-auto-creator.py` (v0.09).

The script correlates tape-drive device identifiers with autochanger drive
indexes by physically loading and unloading media, then renders Bacula
resource configuration text.  We embed:

* the free-text `mtx status` output as a list of structured status lines
  (`StatusLine`): each `Data Transfer Element` and `Storage Element` record
  of the real output becomes one constructor, anything else is `other`;
* the Status Parser functions `loaded`, the `Data Transfer Element` count,
  and `get_random_slot` as pure functions over that list (the shell command
  each of them issues in the source is issued by the caller in the run
  model below, so that exit codes are tracked uniformly);
* the whole hardware-facing run (inventory commands, optional offline
  phase, pre-clear unload loop, discovery loop) as a function into a
  writer/except pair `Run`: the list of issued commands with their exit
  codes, together with either the final correlation state or the fatal
  outcome (`sys.exit` on a nonzero exit code, or an uncaught Python
  exception).  The hardware responses (status texts, exit codes, the
  regex match of the OS `ready` marker against `mt status` output, and the
  `randint` draw) are supplied by an `Env` of oracles keyed by the query
  site, since the script queries each site at most once;
* the resource rendering step (`Python str.replace` on the three fixed
  templates) with a hand-rolled `pyReplace` that has exactly Python's
  left-to-right, non-overlapping, replace-all semantics, including the
  `archive_device` variable that the source threads (un-reset) across the
  device-generation `while` loop and across libraries.
-/

namespace Brac

/-- One line of `mtx -f <lib> status` output, structured.
`dteEmpty i` stands for a `Data Transfer Element i:Empty` record,
`dteFull i s v` for `Data Transfer Element i:Full (Storage Element s
Loaded):VolumeTag = v`, `storageEmpty s` for `Storage Element s:Empty`,
`storageFull s v` for `Storage Element s:Full :VolumeTag=v`, and
`other t` for any other line. -/
inductive StatusLine where
  | dteEmpty (index : Nat)
  | dteFull (index : Nat) (slot : Nat) (voltag : String)
  | storageEmpty (slot : Nat)
  | storageFull (slot : Nat) (voltag : String)
  | other (text : String)
deriving DecidableEq, Repr

/-- Whether a line is a `Data Transfer Element` (drive) record. -/
def StatusLine.isDTE : StatusLine → Bool
  | .dteEmpty _ => true
  | .dteFull _ _ _ => true
  | _ => false

/-- Whether a line is the `Data Transfer Element index:Full` record for
the given index (the pattern searched by `loaded`, source line 193). -/
def StatusLine.isDTEFullAt (index : Nat) : StatusLine → Bool
  | .dteFull i _ _ => i == index
  | _ => false

/-- `num_drives = len(re.findall('Data Transfer Element', result.stdout))`
(source lines 410 and 433): the number of drive records in a status text. -/
def countDataTransferElements (st : List StatusLine) : Nat :=
  (st.filter StatusLine.isDTE).length

/-- `loaded(lib, index)` (source lines 190-205): search the status text for
the first `Data Transfer Element index:Full ...` record; if present return
the originating slot and volume tag, otherwise the empty marker (the
source's `'0', '0'` sentinel is rendered as `none`). -/
def loaded (st : List StatusLine) (index : Nat) : Option (Nat × String) :=
  match st with
  | [] => none
  | .dteFull i s v :: rest => if i = index then some (s, v) else loaded rest index
  | _ :: rest => loaded rest index

/-- `List.isPrefixOf`-based substring test: does `s` contain `pat`?
Embeds `grep`-style containment (used for the `grep -v "CLN"` filter of
`get_random_slot`, source line 209). -/
def subMatch (pat : List Char) : List Char → Bool
  | [] => pat.isEmpty
  | c :: rest => pat.isPrefixOf (c :: rest) || subMatch pat rest

/-- String-level substring containment. -/
def strContains (s pat : String) : Bool :=
  subMatch pat.data s.data

/-- The lines kept by
`grep "Storage Element [0-9]\x7b1,3\x7d:Full" | grep -v "CLN"`
(source line 209): full storage elements whose line does not contain the
cleaning-tape marker `CLN`. -/
def StatusLine.isFullNonCleaning : StatusLine → Bool
  | .storageFull _ v => !(strContains v "CLN")
  | _ => false

/-- `full_slots_lst` of `get_random_slot` (source line 210). -/
def full_slots_lst (st : List StatusLine) : List StatusLine :=
  st.filter StatusLine.isFullNonCleaning

/-- Slot number and volume tag of a full storage-element line. -/
def slotVolOf : StatusLine → Nat × String
  | .storageFull s v => (s, v)
  | _ => (0, "")

/-- `get_random_slot(lib)` (source lines 207-214) after its shell
pipeline has been checked: pick a pseudo-random full, non-cleaning slot.
`pick` stands for the `randint` draw (reduced modulo the number of
candidates, as `randint(0, len - 1)` is).  When the candidate list is
empty the function body evaluates `randint(0, -1)`, which raises
`ValueError`; that is the `.error` branch.  In the program this branch
is shielded: the pipeline's exit code (`grepPipeRC` below) is checked by
`chk_cmd_result` first, and it is 1 exactly when the filtered output is
empty, so the run exits before `randint` whenever this list is empty. -/
def get_random_slot (st : List StatusLine) (pick : Nat) : Except Unit (Nat × String) :=
  let fl := full_slots_lst st
  if h : fl.length = 0 then .error ()
  else .ok (slotVolOf (fl.get ⟨pick % fl.length, Nat.mod_lt _ (Nat.pos_of_ne_zero h)⟩))

/-- Exit code of the `mtx ... status | grep "Storage Element
[0-9]\x7b1,3\x7d:Full" | grep -v "CLN"` pipeline of `get_random_slot`
(source line 209).  Under `sh` the pipeline's status is that of the last
command, and `grep -v` exits 0 when it selects at least one line and 1
when it selects none — so the exit code is determined by whether any
full, non-cleaning storage-element line survives the filters. -/
def grepPipeRC (st : List StatusLine) : Int :=
  if full_slots_lst st = [] then 1 else 0

/-- Python `str.replace` on character lists: left-to-right, non-overlapping,
replaces every occurrence.  The recursion is fueled so that it is
structural (and therefore kernel-computable); every step consumes at
least one character of `s`, so fuel `s.length` never runs out for the
nonempty patterns the source uses. -/
def replaceAux : Nat → List Char → List Char → List Char → List Char
  | 0, _, _, s => s
  | fuel + 1, pat, rep, s =>
    match s with
    | [] => []
    | c :: rest =>
      if pat ≠ [] ∧ pat.isPrefixOf (c :: rest) then
        rep ++ replaceAux fuel pat rep ((c :: rest).drop pat.length)
      else
        c :: replaceAux fuel pat rep rest

/-- Python `s.replace(pat, rep)`. -/
def pyReplace (s pat rep : String) : String :=
  ⟨replaceAux s.data.length pat.data rep.data s.data⟩

/-- `director_storage_tpl` (source lines 262-272). -/
def director_storage_tpl : String :=
  "Storage \x7b\n  Name =\n  Description =\n  Address =\n  Password =\n  Autochanger =\n  Device =\n  MaximumConcurrentJobs =\n  MediaType =\n  SdPort = 9103\n\x7d"

/-- `storage_autochanger_tpl` (source lines 274-280). -/
def storage_autochanger_tpl : String :=
  "Autochanger \x7b\n  Name =\n  Description =\n  ChangerCommand = \"/opt/bacula/scripts/mtx-changer %c %o %S %a %d\"\n  ChangerDevice =\n  Device =\n\x7d"

/-- `storage_device_tpl` (source lines 282-296). -/
def storage_device_tpl : String :=
  "Device \x7b\n  Name =\n  Description =\n  DriveIndex =\n  DeviceType = Tape\n  MediaType =\n  Autochanger = yes\n  AlwaysOpen = yes\n  AutomaticMount = yes\n  LabelMedia = no\n  RandomAccess = no\n  RemovableMedia = yes\n  MaximumConcurrentJobs = 1\n  ArchiveDevice =\n\x7d"

/-- `autochanger_name = 'Autochanger_' + lib.replace('scsi-', '')`
(source line 518). -/
def autochangerName (lib : String) : String :=
  "Autochanger_" ++ pyReplace lib "scsi-" ""

/-- The Director Storage resource text for a library (source lines 523-532).
`cb` is the run's `created_by_str`, `n` the number of correlation entries
of the library (`len(lib_dict[lib])`). -/
def director_storage_res (cb lib : String) (n : Nat) : String :=
  let an := autochangerName lib
  let t := director_storage_tpl
  let t := pyReplace t "Name =" ("Name = \"" ++ an ++ "\"")
  let t := pyReplace t "Description ="
      ("Description = \"Autochanger with (" ++ toString n ++ ") drives - " ++ cb ++ "\"")
  let t := pyReplace t "Address ="
      "Address = \"127.0.0.1\"       # You *must* replace this with the correct FQDN!"
  let t := pyReplace t "Password ="
      "Password = \"wrongPassword\"  # You *must* replace this with the correct password for the SD @ Address"
  let t := pyReplace t "Autochanger =" ("Autochanger = \"" ++ an ++ "\"")
  let t := pyReplace t "Device =" ("Device = \"" ++ an ++ "\"")
  let t := pyReplace t "MaximumConcurrentJobs =" ("MaximumConcurrentJobs = " ++ toString n)
  pyReplace t "MediaType =" ("MediaType = \"" ++ pyReplace lib "scsi-" "" ++ "\"")

/-- The Storage Autochanger resource text before the `Device =` line is
filled in (source lines 542-545). -/
def storage_autochanger_base (cb lib : String) : String :=
  let an := autochangerName lib
  let t := storage_autochanger_tpl
  let t := pyReplace t "Name =" ("Name = \"" ++ an ++ "\"")
  let t := pyReplace t "Description =" ("Description = \"" ++ cb ++ "\"")
  pyReplace t "ChangerDevice =" ("ChangerDevice = \"/dev/tape/by-id/" ++ lib ++ "\"")

/-- One `"<an>_Dev<dev>"` term of `autochanger_dev_str`, with its trailing
`', '` exactly when `dev <= len(lib_dict[lib]) - 2` (source line 551). -/
def autochangerDevTerm (an : String) (n dev : Nat) : String :=
  "\"" ++ an ++ "_Dev" ++ toString dev ++ "\"" ++ (if dev + 2 ≤ n then ", " else "")

/-- `autochanger_dev_str` accumulated over `dev = 0..n-1` (source lines
548-551). -/
def autochangerDevStr (an : String) (n : Nat) : String :=
  (List.range n).foldl (fun acc dev => acc ++ autochangerDevTerm an n dev) ""

/-- One per-drive Device resource text (source lines 555-565), given the
value the `archive_device` variable holds when line 565 runs. -/
def storage_device_res (cb lib : String) (dev : Nat) (archive_device : String) : String :=
  let an := autochangerName lib
  let t := storage_device_tpl
  let t := pyReplace t "Name =" ("Name = \"" ++ an ++ "_Dev" ++ toString dev ++ "\"")
  let t := pyReplace t "Description ="
      ("Description = \"Drive " ++ toString dev ++ " in " ++ an ++ " - " ++ cb ++ "\"")
  let t := pyReplace t "DriveIndex =" ("DriveIndex = " ++ toString dev)
  let t := pyReplace t "MediaType =" ("MediaType = \"" ++ pyReplace lib "scsi-" "" ++ "\"")
  pyReplace t "ArchiveDevice =" ("ArchiveDevice = \"/dev/tape/by-id/" ++ archive_device ++ "\"")

/-- The inner `for drive_index_tuple in lib_dict[lib]` lookup (source lines
561-564): scan all entries, assign `archive_device` at every entry whose
recorded index equals `dev` (the body ends in `continue`, not `break`, so
the last match wins), and keep the incoming value when nothing matches.
`acc = none` renders the variable being unbound. -/
def findArchiveDevice (entries : List (String × Nat)) (dev : Nat)
    (acc : Option String) : Option String :=
  match entries with
  | [] => acc
  | (d, i) :: rest =>
      if i = dev then findArchiveDevice rest dev (some d)
      else findArchiveDevice rest dev acc

/-- The device-generation `while dev < len(lib_dict[lib])` loop (source
lines 547-570) over the remaining `dev` values, threading the
`archive_device` variable.  Reading it while unbound (`none`) is Python's
`NameError`, rendered as `.error`.  Returns the generated device texts and
the final value of `archive_device`. -/
def genDevices (cb lib : String) (entries : List (String × Nat)) :
    List Nat → Option String → Except Unit (List String × Option String)
  | [], arch => .ok ([], arch)
  | dev :: rest, arch =>
    match findArchiveDevice entries dev arch with
    | none => .error ()
    | some a =>
      match genDevices cb lib entries rest (some a) with
      | .error e => .error e
      | .ok (ts, arch') => .ok (storage_device_res cb lib dev a :: ts, arch')

/-- The rendered resources of one library. -/
structure LibRes where
  director : String
  autochanger : String
  devices : List String
deriving DecidableEq, Repr

/-- Rendering one library (source lines 514-575): the Director Storage
text, the Autochanger text with its accumulated `Device =` list, and one
Device text per `dev = 0..len(entries)-1`.  `archIn`/the returned option
are the value of the `archive_device` variable entering and leaving the
loop (the source never resets it between libraries). -/
def renderLib (cb lib : String) (entries : List (String × Nat))
    (archIn : Option String) : Except Unit (LibRes × Option String) :=
  match genDevices cb lib entries (List.range entries.length) archIn with
  | .error e => .error e
  | .ok (devs, archOut) =>
    .ok ({ director := director_storage_res cb lib entries.length
         , autochanger :=
             pyReplace (storage_autochanger_base cb lib) " Device ="
               (" Device = " ++ autochangerDevStr (autochangerName lib) entries.length)
         , devices := devs }, archOut)

/-- The full `for lib in lib_dict` rendering loop (source lines 514-575),
threading `archive_device` across libraries in iteration order. -/
def renderAll (cb : String) :
    List (String × List (String × Nat)) → Option String →
    Except Unit (List (String × LibRes))
  | [], _ => .ok []
  | (lib, es) :: rest, arch =>
    match renderLib cb lib es arch with
    | .error e => .error e
    | .ok (r, arch') =>
      match renderAll cb rest arch' with
      | .error e => .error e
      | .ok rs => .ok ((lib, r) :: rs)

/-- A shell command issued by the script, structured by call site kind.
`shell` covers the inventory commands (`uname`, the `lsscsi` and
`ls -la /dev/tape/by-id` listings), identified by their command text. -/
inductive Cmd where
  | shell (text : String)
  | mtOffline (drive : String)
  | mtxStatus (lib : String)
  | load (lib : String) (slot : Nat) (index : Nat)
  | unload (lib : String) (slot : Nat) (index : Nat)
  | mtStatus (drive : String)
deriving DecidableEq, Repr

/-- How a run dies: `exit c` is `sys.exit(c)` from `chk_cmd_result`
(source lines 125-130), `exc` an uncaught Python exception. -/
inductive Fatal where
  | exit (code : Int)
  | exc (msg : String)
deriving DecidableEq, Repr

/-- A run fragment: the commands it issued with their exit codes, in
order, and either its value or the fatal outcome. -/
abbrev Run (α : Type) : Type := List (Cmd × Int) × Except Fatal α

/-- A fragment that issues nothing and returns. -/
def retR {α : Type} (a : α) : Run α := ([], .ok a)

/-- Sequencing of run fragments: traces concatenate, a fatal outcome
stops everything after it. -/
def seqR {α β : Type} (x : Run α) (f : α → Run β) : Run β :=
  match x with
  | (t, .ok a) => (t ++ (f a).1, (f a).2)
  | (t, .error e) => (t, .error e)

/-- Issue one command and run it through `chk_cmd_result` (source lines
125-130): a nonzero exit code terminates the run with `sys.exit` of that
same code. -/
def cmdOk (c : Cmd) (rc : Int) : Run Unit :=
  ([(c, rc)], if rc = 0 then .ok () else .error (.exit rc))

/-- An uncaught Python exception. -/
def raiseExc {α : Type} (msg : String) : Run α := ([], .error (.exc msg))

/-- The hardware responses, keyed by query site.  The script queries each
site at most once per run, so functions of the site are a faithful
rendering of the time-varying hardware:

* `preStatus lib` / `preStatusRC lib`: stdout and exit code of the
  `mtx status` at the top of the pre-clear loop (source line 409);
* `loadedStatus lib i`: the `mtx status` issued inside `loaded` during
  pre-clear of drive `i` (source lines 192, 418);
* `preUnloadRC lib slot i`: exit code of the pre-clear unload;
* `discStatus lib`: the `mtx status` at the top of the discovery loop
  (source line 432);
* `slotStatus lib i` and `randPick lib i`: the status pipeline output
  and the `randint` draw inside `get_random_slot` for index `i` (source
  line 447); the pipeline's exit code is not free — it is `grepPipeRC`
  of that output, because the shell reports the last `grep`'s status;
* `loadRC lib slot i`: exit code of the `mtx load` (source line 449);
* `mtReady lib i d`: whether `re.search(ready, stdout)` of
  `mt -f /dev/tape/by-id/<d> status` matches after loading into index `i`
  of `lib` (source line 469), `mtRC lib i d` its exit code;
* `discUnloadRC lib slot i`: exit code of the discovery unload.

The OS-dialect selection of the `ready` marker (`get_ready_str`, whose
`mt --version` probes are not checked for failure) is folded into
`mtReady`; the by-id resolution of `lsscsi` output is folded into the
`libsByid`/`drivesByid` lists. -/
structure Env where
  libsByid : List String
  drivesByid : List String
  skip : List String
  offline : Bool
  unameRC : Int
  lsscsiLibsRC : Int
  lsscsiGRC : Int
  lsByIdRC : Int
  lsscsiDrivesRC : Int
  offlineRC : String → Int
  preStatus : String → List StatusLine
  preStatusRC : String → Int
  loadedStatus : String → Nat → List StatusLine
  loadedStatusRC : String → Nat → Int
  preUnloadRC : String → Nat → Nat → Int
  discStatus : String → List StatusLine
  discStatusRC : String → Int
  slotStatus : String → Nat → List StatusLine
  randPick : String → Nat → Nat
  loadRC : String → Nat → Nat → Int
  mtReady : String → Nat → String → Bool
  mtRC : String → Nat → String → Int
  discUnloadRC : String → Nat → Nat → Int

/-- The correlation state: `drives_byid_nodes_lst` (drives not yet
matched, source line 375) and `lib_dict` (source line 249), an
insertion-ordered association list `library => [(drive_byid, index)]`. -/
structure St where
  drives : List String
  dict : List (String × List (String × Nat))
deriving DecidableEq, Repr

/-- `lib_dict[lib].append((d, i))`, creating the key on first use
(source lines 477-480). -/
def recordEntry (dict : List (String × List (String × Nat)))
    (lib d : String) (i : Nat) : List (String × List (String × Nat)) :=
  match dict with
  | [] => [(lib, [(d, i)])]
  | (k, es) :: rest =>
      if k = lib then (k, es ++ [(d, i)]) :: rest
      else (k, es) :: recordEntry rest lib d i

/-- Python `list.remove`: drop the first occurrence (source line 481). -/
def removeFirst (xs : List String) (d : String) : List String :=
  match xs with
  | [] => []
  | x :: rest => if x = d then rest else x :: removeFirst rest d

/-- The inventory commands of the startup section (source lines 139,
317, 333, 341, 360), each checked by `chk_cmd_result`. -/
def inventory (env : Env) : Run Unit :=
  seqR (cmdOk (.shell "uname") env.unameRC) fun _ =>
  seqR (cmdOk (.shell "lsscsi -g | grep mediumx | grep -o \"sg[0-9]*\" | sort") env.lsscsiLibsRC) fun _ =>
  seqR (cmdOk (.shell "lsscsi -g") env.lsscsiGRC) fun _ =>
  seqR (cmdOk (.shell "ls -la /dev/tape/by-id") env.lsByIdRC) fun _ =>
  cmdOk (.shell "lsscsi -g | grep tape | grep -o \"st[0-9]*\" | sort") env.lsscsiDrivesRC

/-- Run a fragment for every element of a list in order. -/
def runList {α : Type} (f : α → Run Unit) : List α → Run Unit
  | [] => retR ()
  | x :: rest => seqR (f x) fun _ => runList f rest

/-- The optional `mt offline` pass over all drives (source lines
387-399). -/
def offlinePhase (env : Env) : Run Unit :=
  if env.offline then runList (fun d => cmdOk (.mtOffline d) (env.offlineRC d)) env.drivesByid
  else retR ()

/-- One drive of the pre-clear loop (source lines 417-421): query
`loaded`; if a tape is in, unload it to its originating slot. -/
def preclearDrive (env : Env) (lib : String) (i : Nat) : Run Unit :=
  seqR (cmdOk (.mtxStatus lib) (env.loadedStatusRC lib i)) fun _ =>
  match loaded (env.loadedStatus lib i) i with
  | some (slot, _) => cmdOk (.unload lib slot i) (env.preUnloadRC lib slot i)
  | none => retR ()

/-- Pre-clear of one library (source lines 408-423): note that every
library in `libs_byid_nodes_lst` is pre-cleared, with no skip-list
check. -/
def preclearLib (env : Env) (lib : String) : Run Unit :=
  seqR (cmdOk (.mtxStatus lib) (env.preStatusRC lib)) fun _ =>
  runList (preclearDrive env lib) (List.range (countDataTransferElements (env.preStatus lib)))

/-- The whole pre-clear phase. -/
def preclearAll (env : Env) : Run Unit :=
  runList (preclearLib env) env.libsByid

/-- The inner `for drive_byid_node in drives_byid_nodes_lst` scan
(source lines 465-489): probe each remaining drive in list order; at the
first one whose `mt status` output matches the `ready` marker, append
`(drive, index)` to `lib_dict[lib]`, remove the drive from the remaining
list, unload the drive, and stop scanning. -/
def scanDrives (env : Env) (lib : String) (slot i : Nat) :
    List String → St → Run St
  | [], st => retR st
  | d :: rest, st =>
    seqR (cmdOk (.mtStatus d) (env.mtRC lib i d)) fun _ =>
    if env.mtReady lib i d then
      seqR (cmdOk (.unload lib slot i) (env.discUnloadRC lib slot i)) fun _ =>
      retR { drives := removeFirst st.drives d, dict := recordEntry st.dict lib d i }
    else
      scanDrives env lib slot i rest st

/-- One index of the discovery loop (source lines 444-490): pick a random
full slot — `get_random_slot` first issues its status pipeline, whose
exit code is `grepPipeRC` of its filtered output and which therefore
aborts the run with exit 1 when no loadable tape exists — then load the
slot into drive `i`, sleep, and scan the remaining drives. -/
def discoverIndex (env : Env) (lib : String) (i : Nat) (st : St) : Run St :=
  seqR (cmdOk (.mtxStatus lib) (grepPipeRC (env.slotStatus lib i))) fun _ =>
  match get_random_slot (env.slotStatus lib i) (env.randPick lib i) with
  | .error _ => raiseExc "ValueError: empty range for randrange"
  | .ok (slot, _vol) =>
    seqR (cmdOk (.load lib slot i) (env.loadRC lib slot i)) fun _ =>
    scanDrives env lib slot i st.drives st

/-- The `while drive_index < num_drives` discovery loop over the listed
indexes. -/
def runIndexes (env : Env) (lib : String) : List Nat → St → Run St
  | [], st => retR st
  | i :: rest, st => seqR (discoverIndex env lib i st) (runIndexes env lib rest)

/-- Discovery of one library (source lines 431-491): the status query and
drive count happen before the skip-list check, so a skipped library still
gets its `mtx status`, but nothing further. -/
def discoverLib (env : Env) (st : St) (lib : String) : Run St :=
  seqR (cmdOk (.mtxStatus lib) (env.discStatusRC lib)) fun _ =>
  if lib ∈ env.skip then retR st
  else runIndexes env lib (List.range (countDataTransferElements (env.discStatus lib))) st

/-- The whole discovery phase over `libs_byid_nodes_lst`. -/
def runLibs (env : Env) : List String → St → Run St
  | [], st => retR st
  | lib :: rest, st => seqR (discoverLib env st lib) (runLibs env rest)

/-- The initial correlation state. -/
def initSt (env : Env) : St := { drives := env.drivesByid, dict := [] }

/-- The hardware-facing part of the script, in source order: inventory,
optional offline pass, pre-clear, discovery.  The reporting and rendering
sections that follow issue no shell commands. -/
def runMain (env : Env) : Run St :=
  seqR (inventory env) fun _ =>
  seqR (offlinePhase env) fun _ =>
  seqR (preclearAll env) fun _ =>
  runLibs env env.libsByid (initSt env)

/-! ## Observations on the correlation state -/

/-- `lib_dict[lib]`, with `[]` for a missing key. -/
def entriesOf (dict : List (String × List (String × Nat))) (lib : String) :
    List (String × Nat) :=
  match dict with
  | [] => []
  | (k, es) :: rest => if k = lib then es else entriesOf rest lib

/-- All drive identifiers recorded anywhere in `lib_dict`, in order. -/
def allIds (dict : List (String × List (String × Nat))) : List String :=
  (dict.map (fun kv => kv.2.map Prod.fst)).flatten

/-- The invariant the discovery loop maintains on the correlation state:
the remaining-drives list has no duplicates, no identifier is recorded
twice anywhere, recorded identifiers are no longer in the remaining
list, the dictionary keys are distinct, and every library's recorded
drive indexes are distinct. -/
structure StInv (st : St) : Prop where
  drivesND : st.drives.Nodup
  idsND : (allIds st.dict).Nodup
  disj : ∀ x ∈ allIds st.dict, x ∉ st.drives
  keysND : (st.dict.map Prod.fst).Nodup
  idxND : ∀ k : String, ((entriesOf st.dict k).map Prod.snd).Nodup

/-- All exit codes in a trace are zero. -/
def allZero (t : List (Cmd × Int)) : Prop := ∀ p ∈ t, p.2 = 0

/-- The shape `chk_cmd_result` forces on every run fragment: on a normal
or exception outcome every issued command exited 0; on a `sys.exit c`
outcome the failing command is the last one issued, its exit code is the
exit status `c`, and everything before it exited 0. -/
def traceOk {α : Type} : Run α → Prop
  | (t, .ok _) => allZero t
  | (t, .error (.exc _)) => allZero t
  | (t, .error (.exit c)) => c ≠ 0 ∧ ∃ t₀ c₀, t = t₀ ++ [(c₀, c)] ∧ allZero t₀

/-! ## Test environments -/

/-- An environment where every command succeeds and nothing is attached:
the base the concrete test environments build on. -/
def zeroEnv : Env :=
  { libsByid := [], drivesByid := [], skip := [], offline := false
  , unameRC := 0, lsscsiLibsRC := 0, lsscsiGRC := 0, lsByIdRC := 0, lsscsiDrivesRC := 0
  , offlineRC := fun _ => 0
  , preStatus := fun _ => [], preStatusRC := fun _ => 0
  , loadedStatus := fun _ _ => [], loadedStatusRC := fun _ _ => 0
  , preUnloadRC := fun _ _ _ => 0
  , discStatus := fun _ => [], discStatusRC := fun _ => 0
  , slotStatus := fun _ _ => []
  , randPick := fun _ _ => 0
  , loadRC := fun _ _ _ => 0
  , mtReady := fun _ _ _ => false, mtRC := fun _ _ _ => 0
  , discUnloadRC := fun _ _ _ => 0 }

/-- Test environment for the C1 witness: three drives, of which only
`D1` reports ready. -/
def envC1 : Env :=
  { zeroEnv with
    libsByid := ["L1"], drivesByid := ["D0", "D1", "D2"]
  , slotStatus := fun _ _ => [StatusLine.storageFull 3 "T3"]
  , mtReady := fun _ _ d => d == "D1" }

/-- Test environment for the C5 witness: one drive that never reports
ready. -/
def envC5 : Env :=
  { zeroEnv with
    libsByid := ["L1"], drivesByid := ["D0"]
  , slotStatus := fun _ _ => [StatusLine.storageFull 2 "T2"] }

/-- Test environment for the C3 counterexample: the only library is on
the skip-list and holds a tape in its drive when the run starts. -/
def envC3 : Env :=
  { zeroEnv with
    libsByid := ["LS"], drivesByid := ["D0"], skip := ["LS"]
  , preStatus := fun _ => [StatusLine.dteFull 0 4 "V4"]
  , loadedStatus := fun _ _ => [StatusLine.dteFull 0 4 "V4"]
  , discStatus := fun _ => [StatusLine.dteFull 0 4 "V4"] }

/-- Test environment for the C3 amended-claim witness: library `LS` is
skipped, library `LO` has one drive that reports ready. -/
def envC3b : Env :=
  { zeroEnv with
    libsByid := ["LS", "LO"], drivesByid := ["D0"], skip := ["LS"]
  , discStatus := fun _ => [StatusLine.dteEmpty 0]
  , slotStatus := fun _ _ => [StatusLine.storageFull 1 "T1"]
  , mtReady := fun l _ d => l == "LO" && d == "D0" }

/-- Test environment for the C2 witness: two libraries and two drives,
`D1` answering ready in `L1` and `D2` in `L2`. -/
def envC2 : Env :=
  { zeroEnv with
    libsByid := ["L1", "L2"], drivesByid := ["D1", "D2"]
  , discStatus := fun _ => [StatusLine.dteEmpty 0]
  , slotStatus := fun _ _ => [StatusLine.storageFull 1 "T1"]
  , mtReady := fun l _ d => (l == "L1" && d == "D1") || (l == "L2" && d == "D2") }

/-- Test environment for the C9 counterexample and witness: the single
library's storage holds only a cleaning tape and an empty slot, so the
`get_random_slot` pipeline selects no line. -/
def envC9 : Env :=
  { zeroEnv with
    libsByid := ["L1"], drivesByid := ["D1"]
  , discStatus := fun _ => [StatusLine.dteEmpty 0]
  , slotStatus := fun _ _ => [StatusLine.storageFull 1 "CLN001", StatusLine.storageEmpty 2] }

/-- Test environment for the C4 witness: the `mtx load` command for the
single drive of the single library fails with exit code 3. -/
def envC4 : Env :=
  { zeroEnv with
    libsByid := ["L1"], drivesByid := ["D1"]
  , discStatus := fun _ => [StatusLine.dteEmpty 0]
  , slotStatus := fun _ _ => [StatusLine.storageFull 1 "T1"]
  , loadRC := fun _ _ _ => 3 }

/-! ## Parser theorems -/

/-- C6: for every drive index and changer status text, `loaded` returns
none (the empty marker) when the `Data Transfer Element index:Full` record
is absent, and returns exactly the originating slot and volume tag of that
record when it is present, regardless of the unrelated status lines around
it — so the result is unchanged by any reordering of the unrelated
lines. -/
theorem loaded_absent_none_present_exact (index : Nat) :
    (∀ st : List StatusLine,
      (∀ l ∈ st, l.isDTEFullAt index = false) → loaded st index = none) ∧
    (∀ (pre post : List StatusLine) (s : Nat) (v : String),
      (∀ l ∈ pre, l.isDTEFullAt index = false) →
      loaded (pre ++ StatusLine.dteFull index s v :: post) index = some (s, v)) := by
  constructor
  · intro st h
    induction st with
    | nil => rfl
    | cons l rest ih =>
      have hl := h l (List.mem_cons_self _ _)
      have hrest : ∀ x ∈ rest, x.isDTEFullAt index = false :=
        fun x hx => h x (List.mem_cons_of_mem _ hx)
      cases l with
      | dteFull i s v =>
        simp only [StatusLine.isDTEFullAt, beq_eq_false_iff_ne, ne_eq] at hl
        simpa [loaded, if_neg hl] using ih hrest
      | dteEmpty i => simpa [loaded] using ih hrest
      | storageEmpty s => simpa [loaded] using ih hrest
      | storageFull s v => simpa [loaded] using ih hrest
      | other t => simpa [loaded] using ih hrest
  · intro pre post s v h
    induction pre with
    | nil => simp [loaded]
    | cons l rest ih =>
      have hl := h l (List.mem_cons_self _ _)
      have hrest : ∀ x ∈ rest, x.isDTEFullAt index = false :=
        fun x hx => h x (List.mem_cons_of_mem _ hx)
      cases l with
      | dteFull i s' v' =>
        simp only [StatusLine.isDTEFullAt, beq_eq_false_iff_ne, ne_eq] at hl
        simpa [loaded, if_neg hl] using ih hrest
      | dteEmpty i => simpa [loaded] using ih hrest
      | storageEmpty s' => simpa [loaded] using ih hrest
      | storageFull s' v' => simpa [loaded] using ih hrest
      | other t => simpa [loaded] using ih hrest

/-- Witness for the C6 theorem at a concrete status text: the record for
drive 1 is found with its exact slot and volume wherever it sits, and a
text without the record yields the empty marker. -/
theorem loaded_absent_none_present_exact_witness :
    loaded [StatusLine.other "junk", StatusLine.dteEmpty 0,
            StatusLine.dteFull 1 7 "VOL7", StatusLine.storageFull 3 "T3"] 1
      = some (7, "VOL7") ∧
    loaded [StatusLine.dteEmpty 1, StatusLine.storageFull 3 "T3"] 1 = none := by
  constructor
  · exact (loaded_absent_none_present_exact 1).2
      [StatusLine.other "junk", StatusLine.dteEmpty 0] [StatusLine.storageFull 3 "T3"]
      7 "VOL7" (by decide)
  · exact (loaded_absent_none_present_exact 1).1
      [StatusLine.dteEmpty 1, StatusLine.storageFull 3 "T3"] (by decide)

/-- C7: for every valid changer status text, the
`len(re.findall('Data Transfer Element', ...))` count used as
`num_drives` is at least 0 and, whenever the drive-element records of the
text are distinct (as they are in any well-formed `mtx status` report),
equals the number of distinct drive-element records present. -/
theorem countDataTransferElements_spec (st : List StatusLine) :
    0 ≤ countDataTransferElements st ∧
    ((st.filter StatusLine.isDTE).Nodup →
      countDataTransferElements st = (st.filter StatusLine.isDTE).dedup.length) := by
  refine ⟨Nat.zero_le _, fun h => ?_⟩
  rw [countDataTransferElements, h.dedup]

/-- Witness for the C7 theorem on a concrete status text with two drive
records and unrelated lines. -/
theorem countDataTransferElements_spec_witness :
    0 ≤ countDataTransferElements
        [StatusLine.dteEmpty 0, StatusLine.dteFull 1 2 "V", StatusLine.storageFull 3 "T"] ∧
    countDataTransferElements
        [StatusLine.dteEmpty 0, StatusLine.dteFull 1 2 "V", StatusLine.storageFull 3 "T"]
      = (([StatusLine.dteEmpty 0, StatusLine.dteFull 1 2 "V",
           StatusLine.storageFull 3 "T"].filter StatusLine.isDTE).dedup).length := by
  refine ⟨(countDataTransferElements_spec _).1, ?_⟩
  exact (countDataTransferElements_spec
    [StatusLine.dteEmpty 0, StatusLine.dteFull 1 2 "V", StatusLine.storageFull 3 "T"]).2
    (by decide)

/-- C9 (counterexample to the claim as stated): on a library whose
status has no full, non-cleaning storage-element line, the program never
evaluates `randint(0, -1)` and raises no exception — the `grep` pipeline
inside `get_random_slot` selects no line and exits 1, and
`chk_cmd_result` terminates the run with `sys.exit(1)` first.  On the
concrete environment the whole run ends in `Fatal.exit 1` (not
`Fatal.exc`), with the failed pipeline as the last command issued. -/
theorem get_random_slot_empty_exits_counterexample :
    (∀ l ∈ envC9.slotStatus "L1" 0, l.isFullNonCleaning = false) ∧
    runMain envC9 =
      ([(Cmd.shell "uname", 0),
        (Cmd.shell "lsscsi -g | grep mediumx | grep -o \"sg[0-9]*\" | sort", 0),
        (Cmd.shell "lsscsi -g", 0),
        (Cmd.shell "ls -la /dev/tape/by-id", 0),
        (Cmd.shell "lsscsi -g | grep tape | grep -o \"st[0-9]*\" | sort", 0),
        (Cmd.mtxStatus "L1", 0),
        (Cmd.mtxStatus "L1", 0),
        (Cmd.mtxStatus "L1", 1)],
       .error (.exit 1)) :=
  ⟨by decide, rfl⟩

/-- C9 (amended): for every library status text containing no full,
non-cleaning storage-element line, `get_random_slot` does not return a
slot value, but not through `randint`: its `grep` pipeline selects no
line and exits 1, so `chk_cmd_result` terminates the whole run with
`sys.exit(1)` before `randint` is ever evaluated.  The empty-library
case is still not handled as a value at the public interface. -/
theorem get_random_slot_empty_exits (env : Env) (lib : String) (i : Nat) (st : St)
    (h : ∀ l ∈ env.slotStatus lib i, l.isFullNonCleaning = false) :
    discoverIndex env lib i st = ([(Cmd.mtxStatus lib, 1)], .error (.exit 1)) := by
  have hfl : full_slots_lst (env.slotStatus lib i) = [] := by
    simpa [full_slots_lst, List.filter_eq_nil_iff] using h
  have hrc : grepPipeRC (env.slotStatus lib i) = 1 := by
    rw [grepPipeRC, if_pos hfl]
  rw [discoverIndex, hrc]
  simp [cmdOk, seqR]

/-- Witness for the amended C9 theorem: a library holding only a
cleaning tape and an empty slot makes the discovery iteration die with
exit status 1 at the pipeline. -/
theorem get_random_slot_empty_exits_witness :
    discoverIndex envC9 "L1" 0 ⟨["D1"], []⟩ =
      ([(Cmd.mtxStatus "L1", 1)], .error (.exit 1)) :=
  get_random_slot_empty_exits envC9 "L1" 0 ⟨["D1"], []⟩ (by decide)

/-! ## Renderer theorems -/

/-- With no entry recorded at `dev`, the `for drive_index_tuple` scan
leaves `archive_device` at its incoming (stale) value. -/
theorem findArchiveDevice_no_match (dev : Nat) (entries : List (String × Nat))
    (acc : Option String) (h : ∀ e ∈ entries, e.2 ≠ dev) :
    findArchiveDevice entries dev acc = acc := by
  induction entries generalizing acc with
  | nil => rfl
  | cons e rest ih =>
    obtain ⟨d, i⟩ := e
    have hi : i ≠ dev := h (d, i) (List.mem_cons_self _ _)
    simp only [findArchiveDevice, if_neg hi]
    exact ih acc fun x hx => h x (List.mem_cons_of_mem _ hx)

/-- The last entry recorded at `dev` determines `archive_device`,
whatever the scan started from. -/
theorem findArchiveDevice_match (dev : Nat) (pre post : List (String × Nat))
    (d : String) (acc : Option String) (hpost : ∀ e ∈ post, e.2 ≠ dev) :
    findArchiveDevice (pre ++ (d, dev) :: post) dev acc = some d := by
  induction pre generalizing acc with
  | nil =>
    simp only [List.nil_append, findArchiveDevice, if_pos rfl]
    exact findArchiveDevice_no_match dev post (some d) hpost
  | cons e rest ih =>
    obtain ⟨d', i'⟩ := e
    simp only [List.cons_append, findArchiveDevice]
    by_cases hi : i' = dev
    · simp only [if_pos hi]; exact ih _
    · simp only [if_neg hi]; exact ih _

/-- The device-generation loop produces one Device text per `dev`
value. -/
theorem genDevices_length (cb lib : String) (entries : List (String × Nat)) :
    ∀ (devs : List Nat) (arch : Option String) (ts : List String)
      (arch' : Option String),
      genDevices cb lib entries devs arch = .ok (ts, arch') →
      ts.length = devs.length := by
  intro devs
  induction devs with
  | nil =>
    intro arch ts arch' h
    simp only [genDevices] at h
    cases h
    rfl
  | cons dev rest ih =>
    intro arch ts arch' h
    simp only [genDevices] at h
    cases hf : findArchiveDevice entries dev arch with
    | none => simp only [hf] at h; exact Except.noConfusion h
    | some a =>
      simp only [hf] at h
      cases hg : genDevices cb lib entries rest (some a) with
      | error e => simp only [hg] at h; exact Except.noConfusion h
      | ok p =>
        obtain ⟨ts1, a1⟩ := p
        simp only [hg, Except.ok.injEq, Prod.mk.injEq] at h
        obtain ⟨hts, -⟩ := h
        subst hts
        simp [ih (some a) ts1 a1 (by rw [hg])]

/-- C10: the device-generation loop numbers device files `dev = 0..n-1`
for a library with `n` correlation entries and writes `DriveIndex = dev`
(the position counter); the `ArchiveDevice` written is the device of the
(last) entry whose recorded driveIndex equals `dev`, and when no such
entry exists it is the stale value carried from the previous iteration —
or, with no previous iteration, the program fails on the unbound
`archive_device` variable (the `.error` outcome). -/
theorem device_generation_archive_semantics (cb lib : String)
    (entries : List (String × Nat)) (dev : Nat) :
    (∀ (acc : Option String) (pre post : List (String × Nat)) (d : String),
      entries = pre ++ (d, dev) :: post → (∀ e ∈ post, e.2 ≠ dev) →
      findArchiveDevice entries dev acc = some d) ∧
    (∀ acc : Option String, (∀ e ∈ entries, e.2 ≠ dev) →
      findArchiveDevice entries dev acc = acc) ∧
    (∀ rest : List Nat, (∀ e ∈ entries, e.2 ≠ dev) →
      genDevices cb lib entries (dev :: rest) none = .error ()) ∧
    (∀ (rest : List Nat) (a : String) (ts : List String) (arch' : Option String),
      (∀ e ∈ entries, e.2 ≠ dev) →
      genDevices cb lib entries (dev :: rest) (some a) = .ok (ts, arch') →
      ∃ ts', ts = storage_device_res cb lib dev a :: ts') ∧
    (∀ (devs : List Nat) (arch : Option String) (ts : List String)
       (arch' : Option String),
      genDevices cb lib entries devs arch = .ok (ts, arch') →
      ts.length = devs.length) ∧
    (∀ (archIn : Option String) (r : LibRes) (archOut : Option String),
      renderLib cb lib entries archIn = .ok (r, archOut) →
      r.devices.length = entries.length) := by
  refine ⟨?_, ?_, ?_, ?_, genDevices_length cb lib entries, ?_⟩
  · intro acc pre post d he hpost
    rw [he]
    exact findArchiveDevice_match dev pre post d acc hpost
  · intro acc h
    exact findArchiveDevice_no_match dev entries acc h
  · intro rest h
    simp only [genDevices, findArchiveDevice_no_match dev entries none h]
  · intro rest a ts arch' h heq
    simp only [genDevices, findArchiveDevice_no_match dev entries (some a) h] at heq
    cases hg : genDevices cb lib entries rest (some a) with
    | error e => rw [hg] at heq; cases heq
    | ok p =>
      rw [hg] at heq
      cases heq
      exact ⟨p.1, rfl⟩
  · intro archIn r archOut h
    rw [renderLib] at h
    cases hg : genDevices cb lib entries (List.range entries.length) archIn with
    | error e => simp only [hg] at h; exact Except.noConfusion h
    | ok p =>
      obtain ⟨devs, archMid⟩ := p
      simp only [hg, Except.ok.injEq, Prod.mk.injEq] at h
      obtain ⟨hr, -⟩ := h
      subst hr
      simpa using genDevices_length cb lib entries _ _ _ _ hg

/-- Witness for the C10 theorem: a stale `archive_device` survives a
non-matching scan, the last matching entry wins, the unbound case fails,
and an incomplete mapping `[(dY, 1)]` of length 1 makes `dev = 0` find no
entry. -/
theorem device_generation_archive_semantics_witness :
    findArchiveDevice [("dY", 1)] 0 (some "dX") = some "dX" ∧
    findArchiveDevice [("dA", 0), ("dB", 0)] 0 none = some "dB" ∧
    genDevices "CB" "scsi-B" [("dY", 1)] [0] none = .error () := by
  refine ⟨?_, ?_, ?_⟩
  · exact (device_generation_archive_semantics "CB" "scsi-B" [("dY", 1)] 0).2.1
      (some "dX") (by decide)
  · exact (device_generation_archive_semantics "CB" "L" [("dA", 0), ("dB", 0)] 0).1
      none [("dA", 0)] [] "dB" rfl (by decide)
  · exact (device_generation_archive_semantics "CB" "scsi-B" [("dY", 1)] 0).2.2.1
      [] (by decide)

set_option maxRecDepth 40000 in
/-- C8 (code bug): the rendering step is not a function of the library
identifier and its own correlation entries.  Rendering the same library
`scsi-B` with the same entries `[(dY, 1)]` — an incomplete mapping,
reachable when index 0 found no ready drive — yields different Device
text depending on which library was rendered before it, because the
stale `archive_device` of the previous library leaks into `scsi-B`'s
`ArchiveDevice` line. -/
theorem render_stale_archive_device :
    (renderAll "CB" [("scsi-A", [("dX", 0)]), ("scsi-B", [("dY", 1)])] none).toOption.bind
        (fun rs => List.lookup "scsi-B" rs) ≠
    (renderAll "CB" [("scsi-C", [("dZ", 0)]), ("scsi-B", [("dY", 1)])] none).toOption.bind
        (fun rs => List.lookup "scsi-B" rs) := by
  decide

/-! ## Run-model helper lemmas -/

theorem seqR_ok {α β : Type} (t : List (Cmd × Int)) (a : α) (f : α → Run β) :
    seqR (t, .ok a) f = (t ++ (f a).1, (f a).2) := rfl

theorem seqR_err {α β : Type} (t : List (Cmd × Int)) (e : Fatal) (f : α → Run β) :
    seqR (t, .error e) f = (t, .error e) := rfl

theorem cmdOk_eq_zero (c : Cmd) (rc : Int) (h : rc = 0) :
    cmdOk c rc = ([(c, 0)], .ok ()) := by
  subst h; simp [cmdOk]

/-- When `get_random_slot` yields a slot, its pipeline had selected at
least one line, so the pipeline's exit code was 0. -/
theorem grepPipeRC_eq_zero_of_ok (st : List StatusLine) (pick : Nat)
    (sv : Nat × String) (h : get_random_slot st pick = .ok sv) :
    grepPipeRC st = 0 := by
  by_cases he : (full_slots_lst st).length = 0
  · have herr : get_random_slot st pick = .error () := by
      simp [get_random_slot, he]
    rw [herr] at h
    exact Except.noConfusion h
  · rw [grepPipeRC, if_neg fun hnil => he (by rw [hnil]; rfl)]

theorem removeFirst_append (d : String) (pre post : List String) (hd : d ∉ pre) :
    removeFirst (pre ++ d :: post) d = pre ++ post := by
  induction pre with
  | nil => simp [removeFirst]
  | cons x rest ih =>
    have hx : ¬x = d := fun h => hd (h ▸ List.mem_cons_self x rest)
    have ih' := ih fun h => hd (List.mem_cons_of_mem _ h)
    simp only [List.cons_append, removeFirst, if_neg hx, List.append_eq]
    rw [ih']

/-- The inner scan when the first ready drive is `d`, after the
non-ready identifiers `pre`: its exact trace and state update. -/
theorem scanDrives_found (env : Env) (lib : String) (slot i : Nat)
    (pre post : List String) (d : String) (st : St)
    (hnr : ∀ x ∈ pre, env.mtReady lib i x = false)
    (hprerc : ∀ x ∈ pre, env.mtRC lib i x = 0)
    (hd : env.mtReady lib i d = true) (hdrc : env.mtRC lib i d = 0)
    (hu : env.discUnloadRC lib slot i = 0) :
    scanDrives env lib slot i (pre ++ d :: post) st =
      (pre.map (fun x => (Cmd.mtStatus x, (0 : Int))) ++
         [(Cmd.mtStatus d, 0), (Cmd.unload lib slot i, 0)],
       .ok { drives := removeFirst st.drives d, dict := recordEntry st.dict lib d i }) := by
  induction pre with
  | nil =>
    simp only [List.nil_append, scanDrives, cmdOk_eq_zero _ _ hdrc, seqR_ok, hd, if_pos,
      cmdOk_eq_zero _ _ hu, List.map_nil]
    simp [seqR, retR]
  | cons x rest ih =>
    have hx : env.mtReady lib i x = false := hnr x (List.mem_cons_self _ _)
    have hxrc : env.mtRC lib i x = 0 := hprerc x (List.mem_cons_self _ _)
    have ih' := ih (fun y hy => hnr y (List.mem_cons_of_mem _ hy))
      (fun y hy => hprerc y (List.mem_cons_of_mem _ hy))
    simp only [List.cons_append, scanDrives, cmdOk_eq_zero _ _ hxrc, seqR_ok, hx,
      Bool.false_eq_true, if_false, List.map_cons, List.append_eq]
    rw [ih']
    simp

/-- The inner scan when no remaining drive reports ready: every drive is
probed in order, nothing is recorded or unloaded, the state is
unchanged. -/
theorem scanDrives_none (env : Env) (lib : String) (slot i : Nat)
    (l : List String) (st : St)
    (hnr : ∀ x ∈ l, env.mtReady lib i x = false)
    (hrc : ∀ x ∈ l, env.mtRC lib i x = 0) :
    scanDrives env lib slot i l st =
      (l.map (fun x => (Cmd.mtStatus x, (0 : Int))), .ok st) := by
  induction l with
  | nil => simp [scanDrives, retR]
  | cons x rest ih =>
    have hx : env.mtReady lib i x = false := hnr x (List.mem_cons_self _ _)
    have hxrc : env.mtRC lib i x = 0 := hrc x (List.mem_cons_self _ _)
    have ih' := ih (fun y hy => hnr y (List.mem_cons_of_mem _ hy))
      (fun y hy => hrc y (List.mem_cons_of_mem _ hy))
    simp only [scanDrives, cmdOk_eq_zero _ _ hxrc, seqR_ok, hx, Bool.false_eq_true,
      if_false, List.map_cons, List.append_eq]
    rw [ih']
    simp

/-! ## Correlator theorems -/

/-- C1: in the discovery phase, after the load and settle delay the
correlator probes the still-unmatched drive identifiers in their list
order; at the first one whose status matches the OS ready marker (here
`d`, coming after the non-ready identifiers `pre`) it records the entry
`(d, i)` in the library's list, removes `d` from the remaining
identifiers, issues `unload(slot, i)`, and stops scanning — the
identifiers in `post` are never probed and first match wins. -/
theorem discovery_first_match (env : Env) (lib : String) (i : Nat) (st : St)
    (pre post : List String) (d : String) (slot : Nat) (vol : String)
    (hdrives : st.drives = pre ++ d :: post)
    (hslot : get_random_slot (env.slotStatus lib i) (env.randPick lib i) = .ok (slot, vol))
    (hrc2 : env.loadRC lib slot i = 0)
    (hnr : ∀ x ∈ pre, env.mtReady lib i x = false)
    (hprerc : ∀ x ∈ pre, env.mtRC lib i x = 0)
    (hd : env.mtReady lib i d = true) (hdrc : env.mtRC lib i d = 0)
    (hu : env.discUnloadRC lib slot i = 0) :
    discoverIndex env lib i st =
      ([(Cmd.mtxStatus lib, 0), (Cmd.load lib slot i, 0)] ++
         pre.map (fun x => (Cmd.mtStatus x, (0 : Int))) ++
         [(Cmd.mtStatus d, 0), (Cmd.unload lib slot i, 0)],
       .ok { drives := pre ++ post, dict := recordEntry st.dict lib d i }) := by
  have hdpre : d ∉ pre := fun hmem => by
    have hfalse := hnr d hmem
    rw [hd] at hfalse
    exact Bool.noConfusion hfalse
  have hscan := scanDrives_found env lib slot i pre post d st hnr hprerc hd hdrc hu
  rw [hdrives, removeFirst_append d pre post hdpre] at hscan
  rw [discoverIndex, cmdOk_eq_zero _ _ (grepPipeRC_eq_zero_of_ok _ _ _ hslot), seqR_ok]
  simp only [hslot]
  rw [cmdOk_eq_zero _ _ hrc2, seqR_ok, hdrives, hscan]
  simp

/-- C5: at a drive index where no remaining identifier reports ready
after the load and settle delay, every remaining identifier is probed,
no entry is recorded for that index, nothing is unloaded, and the run
simply continues with the next indexes from an unchanged state — an
expected outcome, not an error. -/
theorem discovery_no_ready_continues (env : Env) (lib : String) (i : Nat)
    (rest : List Nat) (st : St) (slot : Nat) (vol : String)
    (hslot : get_random_slot (env.slotStatus lib i) (env.randPick lib i) = .ok (slot, vol))
    (hrc2 : env.loadRC lib slot i = 0)
    (hnr : ∀ x ∈ st.drives, env.mtReady lib i x = false)
    (hrc : ∀ x ∈ st.drives, env.mtRC lib i x = 0) :
    runIndexes env lib (i :: rest) st =
      (((Cmd.mtxStatus lib, (0 : Int)) :: (Cmd.load lib slot i, 0) ::
          st.drives.map (fun x => (Cmd.mtStatus x, (0 : Int)))) ++
         (runIndexes env lib rest st).1,
       (runIndexes env lib rest st).2) := by
  have hidx : discoverIndex env lib i st =
      ((Cmd.mtxStatus lib, (0 : Int)) :: (Cmd.load lib slot i, 0) ::
         st.drives.map (fun x => (Cmd.mtStatus x, (0 : Int))), .ok st) := by
    rw [discoverIndex, cmdOk_eq_zero _ _ (grepPipeRC_eq_zero_of_ok _ _ _ hslot), seqR_ok]
    simp only [hslot]
    rw [cmdOk_eq_zero _ _ hrc2, seqR_ok, scanDrives_none env lib slot i st.drives st hnr hrc]
    simp
  rw [runIndexes, hidx]
  simp [seqR]

/-- Witness for the C1 theorem: with remaining drives
`[D0, D1, D2]` and only `D1` ready, index 0 probes `D0` then `D1`,
records `(D1, 0)`, removes `D1`, unloads, and never probes `D2`. -/
theorem discovery_first_match_witness :
    discoverIndex envC1 "L1" 0 ⟨["D0", "D1", "D2"], []⟩ =
      ([(Cmd.mtxStatus "L1", 0), (Cmd.load "L1" 3 0, 0), (Cmd.mtStatus "D0", 0),
        (Cmd.mtStatus "D1", 0), (Cmd.unload "L1" 3 0, 0)],
       .ok ⟨["D0", "D2"], [("L1", [("D1", 0)])]⟩) := by
  have h := discovery_first_match envC1 "L1" 0 ⟨["D0", "D1", "D2"], []⟩
    ["D0"] ["D2"] "D1" 3 "T3" rfl rfl rfl (by decide) (by decide)
    (by decide) rfl rfl
  simpa [recordEntry] using h

/-- Witness for the C5 theorem: no drive ever reports ready, so index 0
records nothing and the run completes with the state unchanged and no
error. -/
theorem discovery_no_ready_continues_witness :
    runIndexes envC5 "L1" [0] ⟨["D0"], []⟩ =
      ([(Cmd.mtxStatus "L1", 0), (Cmd.load "L1" 2 0, 0), (Cmd.mtStatus "D0", 0)],
       .ok ⟨["D0"], []⟩) := by
  have h := discovery_no_ready_continues envC5 "L1" 0 [] ⟨["D0"], []⟩ 2 "T2"
    rfl rfl (by decide) (by decide)
  simpa [runIndexes, retR] using h

/-! ## Inversion lemmas for sequencing -/

theorem seqR_ok_inv {α β : Type} {x : Run α} {f : α → Run β} {b : β}
    (h : (seqR x f).2 = .ok b) : ∃ a, x.2 = .ok a ∧ (f a).2 = .ok b := by
  rcases x with ⟨t, r⟩
  cases r with
  | ok a => exact ⟨a, rfl, by simpa [seqR] using h⟩
  | error e => simp [seqR] at h

theorem mem_seqR_trace {α β : Type} {x : Run α} {f : α → Run β} {p : Cmd × Int}
    (h : p ∈ (seqR x f).1) : p ∈ x.1 ∨ ∃ a, x.2 = .ok a ∧ p ∈ (f a).1 := by
  rcases x with ⟨t, r⟩
  cases r with
  | ok a =>
    rcases List.mem_append.mp (by simpa [seqR] using h) with h1 | h2
    · exact Or.inl h1
    · exact Or.inr ⟨a, rfl, h2⟩
  | error e => exact Or.inl (by simpa [seqR] using h)

/-! ## Result-shape lemmas for the discovery loop -/

/-- The inner scan either leaves the state alone or records exactly one
drive from its iteration list, removing it from the remaining list. -/
theorem scanDrives_result (env : Env) (lib : String) (slot i : Nat) :
    ∀ (l : List String) (st st' : St),
      (scanDrives env lib slot i l st).2 = .ok st' →
      st' = st ∨ ∃ d ∈ l,
        st' = ⟨removeFirst st.drives d, recordEntry st.dict lib d i⟩ := by
  intro l
  induction l with
  | nil =>
    intro st st' h
    simp only [scanDrives, retR] at h
    cases h
    exact Or.inl rfl
  | cons d rest ih =>
    intro st st' h
    simp only [scanDrives] at h
    obtain ⟨a, _, hf⟩ := seqR_ok_inv h
    by_cases hr : env.mtReady lib i d
    · rw [if_pos hr] at hf
      obtain ⟨b, _, hf2⟩ := seqR_ok_inv hf
      simp only [retR] at hf2
      cases hf2
      exact Or.inr ⟨d, List.mem_cons_self _ _, rfl⟩
    · rw [if_neg hr] at hf
      rcases ih st st' hf with h1 | ⟨d', hd', h2⟩
      · exact Or.inl h1
      · exact Or.inr ⟨d', List.mem_cons_of_mem _ hd', h2⟩

/-- One discovery index either leaves the state alone or records exactly
one remaining drive. -/
theorem discoverIndex_result (env : Env) (lib : String) (i : Nat) (st st' : St)
    (h : (discoverIndex env lib i st).2 = .ok st') :
    st' = st ∨ ∃ d ∈ st.drives,
      st' = ⟨removeFirst st.drives d, recordEntry st.dict lib d i⟩ := by
  simp only [discoverIndex] at h
  obtain ⟨a, _, h2⟩ := seqR_ok_inv h
  cases hg : get_random_slot (env.slotStatus lib i) (env.randPick lib i) with
  | error e =>
    simp only [hg] at h2
    simp [raiseExc] at h2
  | ok sv =>
    obtain ⟨slot, vol⟩ := sv
    simp only [hg] at h2
    obtain ⟨b, _, h3⟩ := seqR_ok_inv h2
    exact scanDrives_result env lib slot i st.drives st st' h3

/-- Recording into one library leaves every other library's entry list
unchanged. -/
theorem entriesOf_recordEntry_other (dict : List (String × List (String × Nat)))
    (lib d : String) (i : Nat) (k : String) (hk : k ≠ lib) :
    entriesOf (recordEntry dict lib d i) k = entriesOf dict k := by
  have hlk : ¬(lib = k) := fun h => hk h.symm
  induction dict with
  | nil => simp [recordEntry, entriesOf, hlk]
  | cons kv rest ih =>
    obtain ⟨k', es⟩ := kv
    by_cases hk' : k' = lib
    · subst hk'
      simp [recordEntry, entriesOf, hlk]
    · by_cases hkk : k' = k
      · simp [recordEntry, entriesOf, hk', hkk, hk]
      · simp [recordEntry, entriesOf, hk', hkk, ih]

/-- Recording into a library appends the entry to that library's list. -/
theorem entriesOf_recordEntry_self (dict : List (String × List (String × Nat)))
    (lib d : String) (i : Nat) :
    entriesOf (recordEntry dict lib d i) lib = entriesOf dict lib ++ [(d, i)] := by
  induction dict with
  | nil => simp [recordEntry, entriesOf]
  | cons kv rest ih =>
    obtain ⟨k', es⟩ := kv
    by_cases hk' : k' = lib
    · simp [recordEntry, entriesOf, hk']
    · simp [recordEntry, entriesOf, hk', ih]

/-- Discovery of a library other than `k` never changes `k`'s entry
list. -/
theorem runIndexes_entriesOf_other (env : Env) (lib k : String) (hne : lib ≠ k) :
    ∀ (devs : List Nat) (st st' : St),
      (runIndexes env lib devs st).2 = .ok st' →
      entriesOf st'.dict k = entriesOf st.dict k := by
  intro devs
  induction devs with
  | nil =>
    intro st st' h
    simp only [runIndexes, retR] at h
    cases h
    rfl
  | cons i rest ih =>
    intro st st' h
    simp only [runIndexes] at h
    obtain ⟨st₁, h1, h2⟩ := seqR_ok_inv h
    have e1 : entriesOf st₁.dict k = entriesOf st.dict k := by
      rcases discoverIndex_result env lib i st st₁ h1 with rfl | ⟨d, _, rfl⟩
      · rfl
      · exact entriesOf_recordEntry_other st.dict lib d i k fun h => hne h.symm
    rw [ih st₁ st' h2, e1]

/-- For a library `k` on the skip-list, processing any library leaves
`k`'s entry list unchanged. -/
theorem discoverLib_entriesOf_skip (env : Env) (k : String) (hskip : k ∈ env.skip)
    (lib : String) (st st' : St) (h : (discoverLib env st lib).2 = .ok st') :
    entriesOf st'.dict k = entriesOf st.dict k := by
  simp only [discoverLib] at h
  obtain ⟨a, _, h2⟩ := seqR_ok_inv h
  by_cases hl : lib ∈ env.skip
  · rw [if_pos hl] at h2
    simp only [retR] at h2
    cases h2
    rfl
  · rw [if_neg hl] at h2
    exact runIndexes_entriesOf_other env lib k (fun e => hl (e ▸ hskip)) _ st st' h2

theorem runLibs_entriesOf_skip (env : Env) (k : String) (hskip : k ∈ env.skip) :
    ∀ (libs : List String) (st st' : St),
      (runLibs env libs st).2 = .ok st' →
      entriesOf st'.dict k = entriesOf st.dict k := by
  intro libs
  induction libs with
  | nil =>
    intro st st' h
    simp only [runLibs, retR] at h
    cases h
    rfl
  | cons lib rest ih =>
    intro st st' h
    simp only [runLibs] at h
    obtain ⟨st₁, h1, h2⟩ := seqR_ok_inv h
    rw [ih st₁ st' h2, discoverLib_entriesOf_skip env k hskip lib st st₁ h1]

/-- Peeling the three startup phases off a successful full run. -/
theorem runMain_ok_runLibs (env : Env) (st' : St)
    (h : (runMain env).2 = .ok st') :
    (runLibs env env.libsByid (initSt env)).2 = .ok st' := by
  simp only [runMain] at h
  obtain ⟨_, _, h⟩ := seqR_ok_inv h
  obtain ⟨_, _, h⟩ := seqR_ok_inv h
  obtain ⟨_, _, h⟩ := seqR_ok_inv h
  exact h

/-! ## Trace lemmas for the discovery phase of a skipped library -/

theorem scanDrives_noTouch (env : Env) (lib : String) (slot i : Nat)
    (k : String) (hne : lib ≠ k) :
    ∀ (l : List String) (st : St), ∀ p ∈ (scanDrives env lib slot i l st).1,
      ∀ s j, p.1 ≠ Cmd.load k s j ∧ p.1 ≠ Cmd.unload k s j := by
  intro l
  induction l with
  | nil => intro st p hp; simp [scanDrives, retR] at hp
  | cons d rest ih =>
    intro st p hp s j
    simp only [scanDrives] at hp
    rcases mem_seqR_trace hp with h1 | ⟨a, _, h2⟩
    · simp only [cmdOk, List.mem_singleton] at h1
      subst h1
      exact ⟨by simp, by simp⟩
    · by_cases hr : env.mtReady lib i d
      · rw [if_pos hr] at h2
        rcases mem_seqR_trace h2 with h3 | ⟨b, _, h4⟩
        · simp only [cmdOk, List.mem_singleton] at h3
          subst h3
          exact ⟨by simp, by simp [hne]⟩
        · simp [retR] at h4
      · rw [if_neg hr] at h2
        exact ih st p h2 s j

theorem discoverIndex_noTouch (env : Env) (lib : String) (i : Nat)
    (k : String) (hne : lib ≠ k) (st : St) :
    ∀ p ∈ (discoverIndex env lib i st).1,
      ∀ s j, p.1 ≠ Cmd.load k s j ∧ p.1 ≠ Cmd.unload k s j := by
  intro p hp s j
  simp only [discoverIndex] at hp
  rcases mem_seqR_trace hp with h1 | ⟨a, _, h2⟩
  · simp only [cmdOk, List.mem_singleton] at h1
    subst h1
    exact ⟨by simp, by simp⟩
  · cases hg : get_random_slot (env.slotStatus lib i) (env.randPick lib i) with
    | error e =>
      simp only [hg] at h2
      simp [raiseExc] at h2
    | ok sv =>
      obtain ⟨slot, vol⟩ := sv
      simp only [hg] at h2
      rcases mem_seqR_trace h2 with h3 | ⟨b, _, h4⟩
      · simp only [cmdOk, List.mem_singleton] at h3
        subst h3
        exact ⟨by simp [hne], by simp⟩
      · exact scanDrives_noTouch env lib slot i k hne st.drives st p h4 s j

theorem runIndexes_noTouch (env : Env) (lib : String) (k : String) (hne : lib ≠ k) :
    ∀ (devs : List Nat) (st : St), ∀ p ∈ (runIndexes env lib devs st).1,
      ∀ s j, p.1 ≠ Cmd.load k s j ∧ p.1 ≠ Cmd.unload k s j := by
  intro devs
  induction devs with
  | nil => intro st p hp; simp [runIndexes, retR] at hp
  | cons i rest ih =>
    intro st p hp s j
    simp only [runIndexes] at hp
    rcases mem_seqR_trace hp with h1 | ⟨st₁, _, h2⟩
    · exact discoverIndex_noTouch env lib i k hne st p h1 s j
    · exact ih st₁ p h2 s j

theorem discoverLib_noTouch (env : Env) (k : String) (hskip : k ∈ env.skip)
    (lib : String) (st : St) :
    ∀ p ∈ (discoverLib env st lib).1,
      ∀ s j, p.1 ≠ Cmd.load k s j ∧ p.1 ≠ Cmd.unload k s j := by
  intro p hp s j
  simp only [discoverLib] at hp
  rcases mem_seqR_trace hp with h1 | ⟨a, _, h2⟩
  · simp only [cmdOk, List.mem_singleton] at h1
    subst h1
    exact ⟨by simp, by simp⟩
  · by_cases hl : lib ∈ env.skip
    · rw [if_pos hl] at h2
      simp [retR] at h2
    · rw [if_neg hl] at h2
      exact runIndexes_noTouch env lib k (fun e => hl (e ▸ hskip)) _ st p h2 s j

theorem runLibs_noTouch (env : Env) (k : String) (hskip : k ∈ env.skip) :
    ∀ (libs : List String) (st : St), ∀ p ∈ (runLibs env libs st).1,
      ∀ s j, p.1 ≠ Cmd.load k s j ∧ p.1 ≠ Cmd.unload k s j := by
  intro libs
  induction libs with
  | nil => intro st p hp; simp [runLibs, retR] at hp
  | cons lib rest ih =>
    intro st p hp s j
    simp only [runLibs] at hp
    rcases mem_seqR_trace hp with h1 | ⟨st₁, _, h2⟩
    · exact discoverLib_noTouch env k hskip lib st p h1 s j
    · exact ih st₁ p h2 s j

/-! ## C3 -/

/-- C3 (counterexample to the claim as stated): a library on the
skip-list is not spared in every phase — the pre-clear unload loop runs
over all libraries with no skip-list check, so a skipped library holding
a tape receives an unload command. -/
theorem skipped_library_counterexample :
    "LS" ∈ envC3.skip ∧ (Cmd.unload "LS" 4 0, (0 : Int)) ∈ (runMain envC3).1 := by
  decide

/-- C3 (amended): a library on the skip-list is never issued a load or
unload command during the discovery phase and contributes no correlation
entries to the result; the pre-clear phase, however, still queries it
and unloads any loaded drives in it. -/
theorem skipped_library_discovery (env : Env) (k : String) (hskip : k ∈ env.skip) :
    (∀ p ∈ (runLibs env env.libsByid (initSt env)).1,
       ∀ s j, p.1 ≠ Cmd.load k s j ∧ p.1 ≠ Cmd.unload k s j) ∧
    (∀ st', (runMain env).2 = .ok st' → entriesOf st'.dict k = []) := by
  constructor
  · exact runLibs_noTouch env k hskip env.libsByid (initSt env)
  · intro st' h
    have h2 := runMain_ok_runLibs env st' h
    have h3 := runLibs_entriesOf_skip env k hskip env.libsByid (initSt env) st' h2
    simpa [initSt, entriesOf] using h3

/-- Witness for the amended C3 theorem on the two-library test
environment: the skipped library `LS` receives no load command in the
discovery phase and ends with no entries even though library `LO` is
fully processed. -/
theorem skipped_library_discovery_witness :
    (Cmd.load "LS" 1 0, (0 : Int)) ∉ (runLibs envC3b envC3b.libsByid (initSt envC3b)).1 ∧
    entriesOf (⟨[], [("LO", [("D0", 0)])]⟩ : St).dict "LS" = [] := by
  constructor
  · intro hmem
    exact ((skipped_library_discovery envC3b "LS" (by decide)).1 _ hmem 1 0).1 rfl
  · exact (skipped_library_discovery envC3b "LS" (by decide)).2
      ⟨[], [("LO", [("D0", 0)])]⟩ rfl

/-! ## C2: uniqueness invariants of the correlation state -/

theorem allIds_nil : allIds [] = [] := rfl

theorem allIds_cons (k : String) (es : List (String × Nat))
    (rest : List (String × List (String × Nat))) :
    allIds ((k, es) :: rest) = es.map Prod.fst ++ allIds rest := by
  simp [allIds]

/-- Recording an entry adds exactly one identifier to the recorded
pool. -/
theorem allIds_recordEntry_perm (dict : List (String × List (String × Nat)))
    (lib d : String) (i : Nat) :
    List.Perm (allIds (recordEntry dict lib d i)) (allIds dict ++ [d]) := by
  induction dict with
  | nil => simp [recordEntry, allIds]
  | cons kv rest ih =>
    obtain ⟨k, es⟩ := kv
    by_cases hk : k = lib
    · subst hk
      simp only [recordEntry, eq_self_iff_true, if_true, allIds_cons, List.map_append]
      rw [List.append_assoc, List.append_assoc]
      exact List.Perm.append_left _ List.perm_append_comm
    · simp only [recordEntry, if_neg hk, allIds_cons]
      rw [List.append_assoc]
      exact List.Perm.append_left _ ih

theorem removeFirst_sublist (xs : List String) (d : String) :
    List.Sublist (removeFirst xs d) xs := by
  induction xs with
  | nil => simp [removeFirst]
  | cons x rest ih =>
    by_cases hx : x = d
    · rw [removeFirst, if_pos hx]
      exact List.sublist_cons_self x rest
    · rw [removeFirst, if_neg hx]
      exact ih.cons₂ x

theorem not_mem_removeFirst_self (xs : List String) (d : String)
    (h : xs.Nodup) : d ∉ removeFirst xs d := by
  induction xs with
  | nil => simp [removeFirst]
  | cons x rest ih =>
    rcases List.nodup_cons.mp h with ⟨hx, hrest⟩
    by_cases hxd : x = d
    · subst hxd
      simpa [removeFirst] using hx
    · simp only [removeFirst, if_neg hxd, List.mem_cons]
      rintro (rfl | hmem)
      · exact hxd rfl
      · exact ih hrest hmem

theorem mem_keys_recordEntry (dict : List (String × List (String × Nat)))
    (lib d : String) (i : Nat) (x : String)
    (h : x ∈ (recordEntry dict lib d i).map Prod.fst) :
    x ∈ dict.map Prod.fst ∨ x = lib := by
  induction dict with
  | nil =>
    simp only [recordEntry, List.map_cons, List.map_nil, List.mem_singleton] at h
    exact Or.inr h
  | cons kv rest ih =>
    obtain ⟨k, es⟩ := kv
    by_cases hk : k = lib
    · subst hk
      simp only [recordEntry, if_pos rfl, List.map_cons] at h ⊢
      exact Or.inl h
    · simp only [recordEntry, if_neg hk, List.map_cons, List.mem_cons] at h
      rcases h with rfl | h2
      · exact Or.inl (List.mem_cons_self _ _)
      · rcases ih h2 with h3 | h3
        · exact Or.inl (List.mem_cons_of_mem _ h3)
        · exact Or.inr h3

theorem keys_recordEntry_nodup (dict : List (String × List (String × Nat)))
    (lib d : String) (i : Nat) (h : (dict.map Prod.fst).Nodup) :
    ((recordEntry dict lib d i).map Prod.fst).Nodup := by
  induction dict with
  | nil => simp [recordEntry]
  | cons kv rest ih =>
    obtain ⟨k, es⟩ := kv
    by_cases hk : k = lib
    · subst hk
      simpa [recordEntry] using h
    · rw [List.map_cons, List.nodup_cons] at h
      obtain ⟨hk0, hrest⟩ := h
      simp only [recordEntry, if_neg hk, List.map_cons, List.nodup_cons]
      refine ⟨fun hmem => ?_, ih hrest⟩
      rcases mem_keys_recordEntry rest lib d i k hmem with h3 | h3
      · exact hk0 h3
      · exact hk h3

/-- With distinct keys, membership in the dictionary is lookup. -/
theorem mem_dict_entriesOf (dict : List (String × List (String × Nat)))
    (hnd : (dict.map Prod.fst).Nodup) (kv : String × List (String × Nat))
    (h : kv ∈ dict) : entriesOf dict kv.1 = kv.2 := by
  induction dict with
  | nil => simp at h
  | cons kv' rest ih =>
    obtain ⟨k, es⟩ := kv'
    simp only [List.map_cons, List.nodup_cons] at hnd
    obtain ⟨hk0, hrest⟩ := hnd
    rcases List.mem_cons.mp h with rfl | h2
    · simp [entriesOf]
    · have hk1 : k ≠ kv.1 := by
        intro e
        exact hk0 (e ▸ List.mem_map_of_mem Prod.fst h2)
      simp only [entriesOf, if_neg hk1]
      exact ih hrest h2

/-- The state update of a successful match preserves the discovery
invariant, provided the matched drive was still in the remaining list
and the recorded index is new to the library. -/
theorem stinv_update (st : St) (lib d : String) (i : Nat) (inv : StInv st)
    (hd : d ∈ st.drives)
    (hidx : ∀ j ∈ (entriesOf st.dict lib).map Prod.snd, j < i) :
    StInv ⟨removeFirst st.drives d, recordEntry st.dict lib d i⟩ := by
  have hdp : d ∉ allIds st.dict := fun hmem => inv.disj d hmem hd
  have hperm := allIds_recordEntry_perm st.dict lib d i
  have hids : (allIds st.dict ++ [d]).Nodup := by
    rw [List.nodup_append]
    refine ⟨inv.idsND, List.nodup_singleton d, ?_⟩
    intro x hx hx1
    rw [List.mem_singleton] at hx1
    exact hdp (hx1 ▸ hx)
  refine ⟨inv.drivesND.sublist (removeFirst_sublist st.drives d),
          hperm.symm.nodup hids, ?_, keys_recordEntry_nodup st.dict lib d i inv.keysND, ?_⟩
  · intro x hx
    rcases List.mem_append.mp (hperm.mem_iff.mp hx) with h1 | h2
    · intro hmem
      exact inv.disj x h1 ((removeFirst_sublist st.drives d).subset hmem)
    · rw [List.mem_singleton] at h2
      subst h2
      exact not_mem_removeFirst_self st.drives x inv.drivesND
  · intro k
    by_cases hk : k = lib
    · subst hk
      rw [entriesOf_recordEntry_self, List.map_append]
      rw [List.nodup_append]
      refine ⟨inv.idxND k, List.nodup_singleton i, ?_⟩
      intro j hj hj1
      simp only [List.map_cons, List.map_nil, List.mem_singleton] at hj1
      subst hj1
      exact Nat.lt_irrefl j (hidx j hj)
    · rw [entriesOf_recordEntry_other st.dict lib d i k hk]
      exact inv.idxND k

/-- One discovery index preserves the invariant, keeps the processed
library's recorded indexes at most `i`, and leaves other libraries'
entries unchanged. -/
theorem stinv_discoverIndex (env : Env) (lib : String) (i : Nat) (st st' : St)
    (inv : StInv st)
    (hidx : ∀ j ∈ (entriesOf st.dict lib).map Prod.snd, j < i)
    (h : (discoverIndex env lib i st).2 = .ok st') :
    StInv st' ∧ (∀ j ∈ (entriesOf st'.dict lib).map Prod.snd, j ≤ i) ∧
    (∀ k, k ≠ lib → entriesOf st'.dict k = entriesOf st.dict k) := by
  rcases discoverIndex_result env lib i st st' h with rfl | ⟨d, hd, rfl⟩
  · exact ⟨inv, fun j hj => Nat.le_of_lt (hidx j hj), fun k _ => rfl⟩
  · refine ⟨stinv_update st lib d i inv hd hidx, ?_, ?_⟩
    · intro j hj
      simp only [entriesOf_recordEntry_self, List.map_append, List.map_cons,
        List.map_nil, List.mem_append, List.mem_singleton] at hj
      rcases hj with hj | hji
      · exact Nat.le_of_lt (hidx j hj)
      · exact Nat.le_of_eq hji
    · intro k hk
      exact entriesOf_recordEntry_other st.dict lib d i k hk

/-- The index loop of one library preserves the invariant and leaves
other libraries' entries unchanged, for any strictly increasing index
list dominating the already-recorded indexes. -/
theorem stinv_runIndexes (env : Env) (lib : String) :
    ∀ (devs : List Nat) (st st' : St), StInv st →
      devs.Pairwise (· < ·) →
      (∀ j ∈ (entriesOf st.dict lib).map Prod.snd, ∀ v ∈ devs, j < v) →
      (runIndexes env lib devs st).2 = .ok st' →
      StInv st' ∧ (∀ k, k ≠ lib → entriesOf st'.dict k = entriesOf st.dict k) := by
  intro devs
  induction devs with
  | nil =>
    intro st st' inv _ _ h
    simp only [runIndexes, retR] at h
    cases h
    exact ⟨inv, fun k _ => rfl⟩
  | cons i rest ih =>
    intro st st' inv hp hb h
    simp only [runIndexes] at h
    obtain ⟨st₁, h1, h2⟩ := seqR_ok_inv h
    rcases List.pairwise_cons.mp hp with ⟨hlt, hp'⟩
    obtain ⟨inv₁, hle, hoth⟩ := stinv_discoverIndex env lib i st st₁ inv
      (fun j hj => hb j hj i (List.mem_cons_self _ _)) h1
    have hb' : ∀ j ∈ (entriesOf st₁.dict lib).map Prod.snd, ∀ v ∈ rest, j < v :=
      fun j hj v hv => Nat.lt_of_le_of_lt (hle j hj) (hlt v hv)
    obtain ⟨inv', hoth'⟩ := ih st₁ st' inv₁ hp' hb' h2
    exact ⟨inv', fun k hk => (hoth' k hk).trans (hoth k hk)⟩

/-- Processing one library preserves the invariant when the library has
no recorded entries yet. -/
theorem stinv_discoverLib (env : Env) (lib : String) (st st' : St)
    (inv : StInv st) (hfresh : entriesOf st.dict lib = [])
    (h : (discoverLib env st lib).2 = .ok st') :
    StInv st' ∧ (∀ k, k ≠ lib → entriesOf st'.dict k = entriesOf st.dict k) := by
  simp only [discoverLib] at h
  obtain ⟨a, _, h2⟩ := seqR_ok_inv h
  by_cases hl : lib ∈ env.skip
  · rw [if_pos hl] at h2
    simp only [retR] at h2
    cases h2
    exact ⟨inv, fun k _ => rfl⟩
  · rw [if_neg hl] at h2
    exact stinv_runIndexes env lib _ st st' inv
      (List.pairwise_lt_range _) (by simp [hfresh]) h2

/-- The whole discovery phase preserves the invariant when the listed
libraries are distinct and fresh. -/
theorem stinv_runLibs (env : Env) :
    ∀ (libs : List String) (st st' : St), StInv st → libs.Nodup →
      (∀ k ∈ libs, entriesOf st.dict k = []) →
      (runLibs env libs st).2 = .ok st' → StInv st' := by
  intro libs
  induction libs with
  | nil =>
    intro st st' inv _ _ h
    simp only [runLibs, retR] at h
    cases h
    exact inv
  | cons lib rest ih =>
    intro st st' inv hnd hfresh h
    simp only [runLibs] at h
    obtain ⟨st₁, h1, h2⟩ := seqR_ok_inv h
    rcases List.nodup_cons.mp hnd with ⟨hlib, hrest⟩
    obtain ⟨inv₁, hoth⟩ := stinv_discoverLib env lib st st₁ inv
      (hfresh lib (List.mem_cons_self _ _)) h1
    refine ih st₁ st' inv₁ hrest ?_ h2
    intro k hk
    have hkne : k ≠ lib := fun e => hlib (e ▸ hk)
    rw [hoth k hkne]
    exact hfresh k (List.mem_cons_of_mem _ hk)

/-- C2: on a run over distinct library and drive identifiers that
completes, the correlator never produces two correlation entries with
the same driveIndex within one library's entry list, and never records
the same stable drive identifier more than once anywhere — in
particular no identifier appears in two libraries' entry lists. -/
theorem correlation_entries_unique (env : Env)
    (hl : env.libsByid.Nodup) (hd : env.drivesByid.Nodup) (st : St)
    (h : (runMain env).2 = .ok st) :
    (∀ kv ∈ st.dict, (kv.2.map Prod.snd).Nodup) ∧ (allIds st.dict).Nodup := by
  have h2 := runMain_ok_runLibs env st h
  have inv0 : StInv (initSt env) := by
    refine ⟨hd, ?_, ?_, ?_, ?_⟩
    · simp [initSt, allIds]
    · intro x hx
      simp [initSt, allIds] at hx
    · simp [initSt]
    · intro k
      simp [initSt, entriesOf]
  have inv := stinv_runLibs env env.libsByid (initSt env) st inv0 hl
    (fun k _ => by simp [initSt, entriesOf]) h2
  refine ⟨fun kv hkv => ?_, inv.idsND⟩
  have := mem_dict_entriesOf st.dict inv.keysND kv hkv
  rw [← this]
  exact inv.idxND kv.1

/-- Witness for the C2 theorem on the two-library environment: the run
completes with entries `L1 => [(D1, 0)]`, `L2 => [(D2, 0)]`, whose
per-library indexes and global identifiers are duplicate-free. -/
theorem correlation_entries_unique_witness :
    (∀ kv ∈ ([("L1", [("D1", 0)]), ("L2", [("D2", 0)])] :
        List (String × List (String × Nat))),
      (kv.2.map Prod.snd).Nodup) ∧
    (allIds [("L1", [("D1", 0)]), ("L2", [("D2", 0)])]).Nodup :=
  correlation_entries_unique envC2 (by decide) (by decide)
    ⟨[], [("L1", [("D1", 0)]), ("L2", [("D2", 0)])]⟩ rfl

/-! ## C4: every nonzero exit code terminates the run with that code -/

theorem allZero_append {t t' : List (Cmd × Int)} (h : allZero t) (h' : allZero t') :
    allZero (t ++ t') := by
  intro p hp
  rcases List.mem_append.mp hp with h1 | h2
  · exact h p h1
  · exact h' p h2

theorem traceOk_retR {α : Type} (a : α) : traceOk (retR a) := by
  intro p hp
  simp [retR] at hp

theorem traceOk_raiseExc {α : Type} (msg : String) :
    traceOk (raiseExc (α := α) msg) := by
  intro p hp
  simp [raiseExc] at hp

theorem traceOk_cmdOk (c : Cmd) (rc : Int) : traceOk (cmdOk c rc) := by
  by_cases h : rc = 0
  · subst h
    simp only [cmdOk, if_pos rfl]
    intro p hp
    rw [List.mem_singleton] at hp
    subst hp
    rfl
  · simp only [cmdOk, if_neg h, traceOk]
    exact ⟨h, [], c, rfl, fun p hp => absurd hp (List.not_mem_nil p)⟩

theorem traceOk_seqR {α β : Type} {x : Run α} {f : α → Run β}
    (hx : traceOk x) (hf : ∀ a, traceOk (f a)) : traceOk (seqR x f) := by
  rcases x with ⟨t, r⟩
  cases r with
  | error e =>
    cases e with
    | exit code => exact hx
    | exc m => exact hx
  | ok a =>
    have hfa := hf a
    rcases hp : f a with ⟨t', r'⟩
    rw [hp] at hfa
    show traceOk (t ++ (f a).1, (f a).2)
    rw [hp]
    cases r' with
    | ok b => exact allZero_append hx hfa
    | error e =>
      cases e with
      | exc m => exact allZero_append hx hfa
      | exit code =>
        obtain ⟨hcode, t₀, c₀, ht, hz⟩ := hfa
        subst ht
        exact ⟨hcode, t ++ t₀, c₀, by rw [List.append_assoc], allZero_append hx hz⟩

theorem traceOk_runList {α : Type} (f : α → Run Unit) (hf : ∀ x, traceOk (f x)) :
    ∀ l : List α, traceOk (runList f l) := by
  intro l
  induction l with
  | nil => exact traceOk_retR ()
  | cons x rest ih => exact traceOk_seqR (hf x) fun _ => ih

theorem traceOk_inventory (env : Env) : traceOk (inventory env) := by
  refine traceOk_seqR (traceOk_cmdOk _ _) fun _ => ?_
  refine traceOk_seqR (traceOk_cmdOk _ _) fun _ => ?_
  refine traceOk_seqR (traceOk_cmdOk _ _) fun _ => ?_
  exact traceOk_seqR (traceOk_cmdOk _ _) fun _ => traceOk_cmdOk _ _

theorem traceOk_offlinePhase (env : Env) : traceOk (offlinePhase env) := by
  rw [offlinePhase]
  by_cases h : env.offline
  · rw [if_pos h]
    exact traceOk_runList _ (fun d => traceOk_cmdOk _ _) _
  · rw [if_neg h]
    exact traceOk_retR ()

theorem traceOk_preclearDrive (env : Env) (lib : String) (i : Nat) :
    traceOk (preclearDrive env lib i) := by
  refine traceOk_seqR (traceOk_cmdOk _ _) fun _ => ?_
  cases loaded (env.loadedStatus lib i) i with
  | none => exact traceOk_retR ()
  | some sv => exact traceOk_cmdOk _ _

theorem traceOk_preclearLib (env : Env) (lib : String) :
    traceOk (preclearLib env lib) :=
  traceOk_seqR (traceOk_cmdOk _ _) fun _ =>
    traceOk_runList _ (traceOk_preclearDrive env lib) _

theorem traceOk_preclearAll (env : Env) : traceOk (preclearAll env) :=
  traceOk_runList _ (traceOk_preclearLib env) _

theorem traceOk_scanDrives (env : Env) (lib : String) (slot i : Nat) :
    ∀ (l : List String) (st : St), traceOk (scanDrives env lib slot i l st) := by
  intro l
  induction l with
  | nil => intro st; exact traceOk_retR st
  | cons d rest ih =>
    intro st
    refine traceOk_seqR (traceOk_cmdOk _ _) fun _ => ?_
    by_cases hr : env.mtReady lib i d
    · rw [if_pos hr]
      exact traceOk_seqR (traceOk_cmdOk _ _) fun _ => traceOk_retR _
    · rw [if_neg hr]
      exact ih st

theorem traceOk_discoverIndex (env : Env) (lib : String) (i : Nat) (st : St) :
    traceOk (discoverIndex env lib i st) := by
  refine traceOk_seqR (traceOk_cmdOk _ _) fun _ => ?_
  cases get_random_slot (env.slotStatus lib i) (env.randPick lib i) with
  | error e => exact traceOk_raiseExc _
  | ok sv =>
    obtain ⟨slot, vol⟩ := sv
    exact traceOk_seqR (traceOk_cmdOk _ _) fun _ => traceOk_scanDrives env lib slot i _ st

theorem traceOk_runIndexes (env : Env) (lib : String) :
    ∀ (devs : List Nat) (st : St), traceOk (runIndexes env lib devs st) := by
  intro devs
  induction devs with
  | nil => intro st; exact traceOk_retR st
  | cons i rest ih =>
    intro st
    exact traceOk_seqR (traceOk_discoverIndex env lib i st) fun st₁ => ih st₁

theorem traceOk_discoverLib (env : Env) (st : St) (lib : String) :
    traceOk (discoverLib env st lib) := by
  refine traceOk_seqR (traceOk_cmdOk _ _) fun _ => ?_
  by_cases h : lib ∈ env.skip
  · rw [if_pos h]; exact traceOk_retR st
  · rw [if_neg h]; exact traceOk_runIndexes env lib _ st

theorem traceOk_runLibs (env : Env) :
    ∀ (libs : List String) (st : St), traceOk (runLibs env libs st) := by
  intro libs
  induction libs with
  | nil => intro st; exact traceOk_retR st
  | cons lib rest ih =>
    intro st
    exact traceOk_seqR (traceOk_discoverLib env st lib) fun st₁ => ih st₁

theorem traceOk_runMain (env : Env) : traceOk (runMain env) :=
  traceOk_seqR (traceOk_inventory env) fun _ =>
    traceOk_seqR (traceOk_offlinePhase env) fun _ =>
      traceOk_seqR (traceOk_preclearAll env) fun _ =>
        traceOk_runLibs env env.libsByid (initSt env)

/-- C4: if any command the run issues (inventory, offline pass,
pre-clear unload, or the discovery phase's status, load and unload
commands) exits with a nonzero code, the whole run terminates
immediately with `sys.exit` of that same code: the failing command is
the last one issued, everything before it exited 0, and no retry or
per-library recovery happens. -/
theorem failing_command_exits (env : Env) (c : Cmd) (rc : Int)
    (hmem : (c, rc) ∈ (runMain env).1) (hrc : rc ≠ 0) :
    (runMain env).2 = .error (.exit rc) ∧
    ∃ t₀, (runMain env).1 = t₀ ++ [(c, rc)] ∧ ∀ q ∈ t₀, q.2 = 0 := by
  have htr := traceOk_runMain env
  revert hmem htr
  rcases runMain env with ⟨t, r⟩
  intro hmem htr
  cases r with
  | ok st => exact absurd (htr _ hmem) hrc
  | error e =>
    cases e with
    | exc m => exact absurd (htr _ hmem) hrc
    | exit code =>
      obtain ⟨hcode, t₀, c₀, ht, hz⟩ := htr
      subst ht
      rcases List.mem_append.mp hmem with h1 | h2
      · exact absurd (hz _ h1) hrc
      · rw [List.mem_singleton] at h2
        cases h2
        exact ⟨rfl, t₀, rfl, hz⟩

/-- Witness for the C4 theorem: in the environment where the `mtx load`
command fails with exit code 3, the run dies with exit status 3, the
load is the last command issued, and everything before it exited 0. -/
theorem failing_command_exits_witness :
    (runMain envC4).2 = .error (.exit 3) ∧
    ∃ t₀, (runMain envC4).1 = t₀ ++ [(Cmd.load "L1" 1 0, 3)] ∧ ∀ q ∈ t₀, q.2 = 0 :=
  failing_command_exits envC4 (Cmd.load "L1" 1 0) 3 (by decide) (by decide)

end Brac
